import Mathlib

/-!
Verification development for the eisenscript interpreter (lexer, parser,
rule table, evaluator).

Shallow embedding notes:
* Scalar values are modelled by `ℚ` in place of `f32`; every numeric value a
  claim evaluates (small integer translations, hue/sat products) is exact in
  `f32`, so `f32` and `ℚ` arithmetic agree on them.
* The 4x4 matrices of `nalgebra` are modelled by an explicit 16-field
  structure with the standard matrix product.
* The trigonometric entries of the rotation constructors (`cos`/`sin` of the
  angle in radians) do not live in `ℚ`; `cosd`/`sind` below are placeholder
  symbols for them.  No claim evaluates a rotation; they exist only so that
  `parse_transform` can be transcribed in full.
* `Rust` panics (`assert_eq!`, `unwrap`, `panic!`) are modelled by a distinct
  `panic` outcome, separate from returned `Err` values, because several claims
  distinguish "returns an error" from "crashes the process".
* Recursive evaluation and the parser loops take an explicit fuel argument;
  `gas` marks fuel exhaustion.  Divergence of the Rust program corresponds to
  the fueled function returning `gas` at every fuel.
-/

namespace Eisen

/-- Row-major 4x4 rational matrix, standing in for `nalgebra::Matrix4<f32>`. -/
structure Mat4 where
  m00 : ℚ
  m01 : ℚ
  m02 : ℚ
  m03 : ℚ
  m10 : ℚ
  m11 : ℚ
  m12 : ℚ
  m13 : ℚ
  m20 : ℚ
  m21 : ℚ
  m22 : ℚ
  m23 : ℚ
  m30 : ℚ
  m31 : ℚ
  m32 : ℚ
  m33 : ℚ
deriving DecidableEq, Repr

/-- The identity matrix (`nalgebra::Matrix4::identity`). -/
def Mat4.identity : Mat4 :=
  ⟨1,0,0,0, 0,1,0,0, 0,0,1,0, 0,0,0,1⟩

/-- Standard matrix product, as `nalgebra`'s `Mul` for `Matrix4`. -/
def Mat4.mul (a b : Mat4) : Mat4 where
  m00 := a.m00*b.m00 + a.m01*b.m10 + a.m02*b.m20 + a.m03*b.m30
  m01 := a.m00*b.m01 + a.m01*b.m11 + a.m02*b.m21 + a.m03*b.m31
  m02 := a.m00*b.m02 + a.m01*b.m12 + a.m02*b.m22 + a.m03*b.m32
  m03 := a.m00*b.m03 + a.m01*b.m13 + a.m02*b.m23 + a.m03*b.m33
  m10 := a.m10*b.m00 + a.m11*b.m10 + a.m12*b.m20 + a.m13*b.m30
  m11 := a.m10*b.m01 + a.m11*b.m11 + a.m12*b.m21 + a.m13*b.m31
  m12 := a.m10*b.m02 + a.m11*b.m12 + a.m12*b.m22 + a.m13*b.m32
  m13 := a.m10*b.m03 + a.m11*b.m13 + a.m12*b.m23 + a.m13*b.m33
  m20 := a.m20*b.m00 + a.m21*b.m10 + a.m22*b.m20 + a.m23*b.m30
  m21 := a.m20*b.m01 + a.m21*b.m11 + a.m22*b.m21 + a.m23*b.m31
  m22 := a.m20*b.m02 + a.m21*b.m12 + a.m22*b.m22 + a.m23*b.m32
  m23 := a.m20*b.m03 + a.m21*b.m13 + a.m22*b.m23 + a.m23*b.m33
  m30 := a.m30*b.m00 + a.m31*b.m10 + a.m32*b.m20 + a.m33*b.m30
  m31 := a.m30*b.m01 + a.m31*b.m11 + a.m32*b.m21 + a.m33*b.m31
  m32 := a.m30*b.m02 + a.m31*b.m12 + a.m32*b.m22 + a.m33*b.m32
  m33 := a.m30*b.m03 + a.m31*b.m13 + a.m32*b.m23 + a.m33*b.m33

instance : Mul Mat4 := ⟨Mat4.mul⟩

/-- `Matrix4::new_translation(&Vector3::new(x, y, z))`. -/
def Mat4.translation (x y z : ℚ) : Mat4 :=
  ⟨1,0,0,x, 0,1,0,y, 0,0,1,z, 0,0,0,1⟩

/-- `Matrix4::new_nonuniform_scaling(&Vector3::new(x, y, z))`. -/
def Mat4.scaling (x y z : ℚ) : Mat4 :=
  ⟨x,0,0,0, 0,y,0,0, 0,0,z,0, 0,0,0,1⟩

/-- Placeholder for `cos(angle.to_radians())`: the trigonometric value does
not live in `ℚ`.  Referenced only by the rotation constructors, which no claim
evaluates. -/
def cosd (_ : ℚ) : ℚ := 1

/-- Placeholder for `sin(angle.to_radians())`; see `cosd`. -/
def sind (_ : ℚ) : ℚ := 0

/-- `Matrix4::from_axis_angle(&Vector3::x_axis(), angle.to_radians())`, with
`cosd`/`sind` standing in for the trigonometric entries. -/
def Mat4.rotX (angle : ℚ) : Mat4 :=
  ⟨1,0,0,0, 0,cosd angle,-(sind angle),0, 0,sind angle,cosd angle,0, 0,0,0,1⟩

/-- Axis-angle rotation about the y axis; see `Mat4.rotX`. -/
def Mat4.rotY (angle : ℚ) : Mat4 :=
  ⟨cosd angle,0,sind angle,0, 0,1,0,0, -(sind angle),0,cosd angle,0, 0,0,0,1⟩

/-- Axis-angle rotation about the z axis; see `Mat4.rotX`. -/
def Mat4.rotZ (angle : ℚ) : Mat4 :=
  ⟨cosd angle,-(sind angle),0,0, sind angle,cosd angle,0,0, 0,0,1,0, 0,0,0,1⟩

/-- `Transform` from `lib.rs`: a 4x4 affine matrix plus hue, saturation,
brightness and alpha scalars. -/
structure Transform where
  tx : Mat4
  hue : ℚ
  sat : ℚ
  brightness : ℚ
  alpha : ℚ
deriving DecidableEq, Repr

/-- `Transform::default()`: identity matrix, hue 0, sat 1, brightness 1,
alpha 1. -/
def Transform.default : Transform :=
  ⟨Mat4.identity, 0, 1, 1, 1⟩

/-- `Transform::mul_assign` / `Mul`: matrices multiply, hue adds, the three
remaining color scalars multiply. -/
def Transform.mul (a b : Transform) : Transform :=
  ⟨a.tx * b.tx, a.hue + b.hue, a.sat * b.sat, a.brightness * b.brightness,
    a.alpha * b.alpha⟩

instance : Mul Transform := ⟨Transform.mul⟩

/-- `Transform::translation`. -/
def Transform.translation (x y z : ℚ) : Transform :=
  ⟨Mat4.translation x y z, 0, 1, 1, 1⟩

/-- `Transform::rotate_x`: rotation pivoted at the unit-cube center on the
other two axes. -/
def Transform.rotate_x (angle : ℚ) : Transform :=
  ⟨Mat4.translation 0 (1/2) (1/2) * Mat4.rotX angle *
      Mat4.translation 0 (-(1/2)) (-(1/2)), 0, 1, 1, 1⟩

/-- `Transform::rotate_y`. -/
def Transform.rotate_y (angle : ℚ) : Transform :=
  ⟨Mat4.translation (1/2) 0 (1/2) * Mat4.rotY angle *
      Mat4.translation (-(1/2)) 0 (-(1/2)), 0, 1, 1, 1⟩

/-- `Transform::rotate_z`. -/
def Transform.rotate_z (angle : ℚ) : Transform :=
  ⟨Mat4.translation (1/2) (1/2) 0 * Mat4.rotZ angle *
      Mat4.translation (-(1/2)) (-(1/2)) 0, 0, 1, 1, 1⟩

/-- `Transform::scale`: non-uniform scaling pivoted at the unit-cube
center. -/
def Transform.scale (x y z : ℚ) : Transform :=
  ⟨Mat4.translation (1/2) (1/2) (1/2) * Mat4.scaling x y z *
      Mat4.translation (-(1/2)) (-(1/2)) (-(1/2)), 0, 1, 1, 1⟩

/-- `Transform::hsv`. -/
def Transform.hsv (hue sat brightness : ℚ) : Transform :=
  ⟨Mat4.identity, hue, sat, brightness, 1⟩

/-- The `Primitive` enumeration from `lib.rs`. -/
inductive Primitive where
  | box
  | sphere
  | dot
  | grid
  | cylinder
  | line
  | mesh
  | template
  | other
deriving DecidableEq, Repr

/-- `Primitive::name` from `lib.rs`, including its misspelling of the
cylinder entry ("cyliner"). -/
def Primitive.name : Primitive → String
  | .box => "box"
  | .sphere => "sphere"
  | .dot => "dot"
  | .grid => "grid"
  | .cylinder => "cyliner"
  | .line => "line"
  | .mesh => "mesh"
  | .template => "template"
  | .other => "other"

/-- `RuleDefinition` from `lib.rs`. -/
structure RuleDefinition where
  name : String
  maxDepth : Option Nat
  retirementRule : Option String
  weight : ℚ
deriving DecidableEq, Repr

/-- `TransformationLoop` from `lib.rs`. -/
structure TransformationLoop where
  count : Nat
  transform : Transform
deriving DecidableEq, Repr

/-- `TransformAction` from `lib.rs`: the loop blocks plus the invoked rule
name. -/
structure TransformAction where
  loops : List TransformationLoop
  rule : String
deriving DecidableEq, Repr

/-- `SetAction` from `lib.rs`. -/
inductive SetAction where
  | maxDepth (n : Nat)
  | maxObjects (n : Nat)
  | minSize (q : ℚ)
  | maxSize (q : ℚ)
  | seed (n : Nat)
  | resetSeed
  | background (s : String)
deriving DecidableEq, Repr

/-- `Action` from `lib.rs`. -/
inductive Action where
  | set (s : SetAction)
  | transform (t : TransformAction)
deriving DecidableEq, Repr

/-- `Custom` from `lib.rs`: a rule definition plus its action list. -/
structure Custom where
  rule : RuleDefinition
  actions : List Action
deriving DecidableEq, Repr

/-- `Ambiguous` from `lib.rs`.  The `rand_distr::WeightedIndex` field is
modelled by the list of weights it was built from. -/
structure Ambiguous where
  name : String
  actions : List Custom
  weights : List ℚ
deriving DecidableEq, Repr

/-- `Rule` from `lib.rs`. -/
inductive Rule where
  | primitive (p : Primitive)
  | custom (c : Custom)
  | ambiguous (a : Ambiguous)
deriving DecidableEq, Repr

/-- `Rule::name`. -/
def Rule.name : Rule → String
  | .primitive p => p.name
  | .custom c => c.rule.name
  | .ambiguous a => a.name

/-- The `RulesMap` (`BTreeMap<String, Rule>`), modelled as an association
list; the only observations the program makes of it are keyed lookup,
keyed insertion and keyed removal. -/
abbrev RulesMap := List (String × Rule)

/-- `BTreeMap::get`. -/
def findRule : RulesMap → String → Option Rule
  | [], _ => none
  | (k, r) :: rest, n => if k = n then some r else findRule rest n

/-- Keyed insertion: replace an existing binding for the key in place, or
append a new binding. -/
def insertRule : RulesMap → String → Rule → RulesMap
  | [], n, r => [(n, r)]
  | (k, r0) :: rest, n, r =>
    if k = n then (n, r) :: rest else (k, r0) :: insertRule rest n r

/-- Keyed removal (`Entry::remove_entry`). -/
def removeRule : RulesMap → String → RulesMap
  | [], _ => []
  | (k, r0) :: rest, n => if k = n then rest else (k, r0) :: removeRule rest n

/-- `RuleSet` from `lib.rs`: the implicit top-level rule and the name-keyed
rule table. -/
structure RuleSet where
  topLevel : Custom
  rules : RulesMap
deriving DecidableEq, Repr

/-- `RuleSet::new`: the nine built-in primitives keyed by `Primitive::name`
(hence the cylinder entry is keyed "cyliner"), plus an empty top-level
rule. -/
def RuleSet.new : RuleSet where
  topLevel :=
    { rule := { name := "Top Level", maxDepth := none, retirementRule := none,
                weight := 1 }
      actions := [] }
  rules :=
    [Primitive.box, .sphere, .dot, .grid, .cylinder, .line, .mesh, .template,
      .other].map fun p => (p.name, Rule.primitive p)

/-- `RuleSet::add_action`. -/
def RuleSet.addAction (rs : RuleSet) (a : Action) : RuleSet :=
  { rs with topLevel := { rs.topLevel with actions := rs.topLevel.actions ++ [a] } }

/-- Modelled from the rand_distr API contract: `WeightedIndex::new` succeeds
exactly when no weight is negative and the total weight is positive (the
float-specific failure modes cannot arise over `ℚ`). -/
def weightsValid (ws : List ℚ) : Bool :=
  ws.all (fun w => 0 ≤ w) && 0 < ws.sum

/-- `RuleSet::push`.  `none` models a panic: `assert_custom` panics when an
occupied entry or the pushed rule is not `Custom`, and
`WeightedIndex::new(..).unwrap()` panics on invalid weights. -/
def RuleSet.push (rs : RuleSet) (r : Rule) : Option RuleSet :=
  match findRule rs.rules r.name with
  | none => some { rs with rules := insertRule rs.rules r.name r }
  | some existing =>
    match existing, r with
    | .custom c1, .custom c2 =>
      let actions := [c1, c2]
      let weights := actions.map fun a => a.rule.weight
      if weightsValid weights then
        some { rs with
                rules := insertRule (removeRule rs.rules r.name) r.name
                  (.ambiguous { name := r.name, actions := actions,
                                weights := weights }) }
      else none
    | _, _ => none

/-- The logos `Token` enumeration from `lexer.rs`.  `comment` (line comments)
and whitespace are skipped by the lexer and never emitted; `error` is the
fallback class for unmatched characters. -/
inductive Token where
  | multilineCommentStart
  | multilineCommentEnd
  | comment
  | ruleDefinition
  | ruleInvocation
  | set
  | bracketOpen
  | bracketClose
  | moreThan
  | multiply
  | literalInteger
  | literalFloat
  | maxDepth
  | weight
  | hue
  | brightness
  | alpha
  | color
  | reflect
  | blend
  | matrix
  | sat
  | v
  | x
  | y
  | z
  | rx
  | ry
  | rz
  | s
  | fx
  | fy
  | fz
  | error
deriving DecidableEq, Repr

/-- A produced token together with the matched slice (`lexer.slice()`). -/
structure Tok where
  tok : Token
  slice : String
deriving DecidableEq, Repr

/-- Character class `[a-zA-Z]`. -/
def isAsciiLetter (c : Char) : Bool :=
  (97 ≤ c.toNat && c.toNat ≤ 122) || (65 ≤ c.toNat && c.toNat ≤ 90)

/-- Character class `[0-9]`. -/
def isAsciiDigit (c : Char) : Bool :=
  48 ≤ c.toNat && c.toNat ≤ 57

/-- Character class `[a-zA-Z0-9]`. -/
def isAlnum (c : Char) : Bool :=
  isAsciiLetter c || isAsciiDigit c

/-- Length of the longest prefix of `s` whose characters satisfy `p`. -/
def spanLen (p : Char → Bool) : List Char → Nat
  | [] => 0
  | c :: rest => if p c then spanLen p rest + 1 else 0

/-- Match a literal token string (`#[token("...")]`): the length of the
pattern when it is a prefix of the input. -/
def litLen (pat : List Char) (str : List Char) : Option Nat :=
  if pat.isPrefixOf str then some pat.length else none

/-- Match `[a-zA-Z]+[a-zA-Z0-9]*` (the `RuleInvocation` regex): maximal match
is one letter followed by every subsequent alphanumeric character. -/
def identLen : List Char → Option Nat
  | [] => none
  | c :: rest => if isAsciiLetter c then some (spanLen isAlnum rest + 1) else none

/-- Match `rule [a-zA-Z]+[a-zA-Z0-9]*` (the `RuleDefinition` regex). -/
def ruleDefLen (str : List Char) : Option Nat :=
  if ("rule ".data).isPrefixOf str then
    match identLen (str.drop 5) with
    | some n => some (5 + n)
    | none => none
  else none

/-- Match `[+-]?[0-9]+` (the `LiteralInteger` regex). -/
def intLen (str : List Char) : Option Nat :=
  match str with
  | [] => none
  | c :: rest =>
    if c = '+' || c = '-' then
      let d := spanLen isAsciiDigit rest
      if d = 0 then none else some (d + 1)
    else
      let d := spanLen isAsciiDigit str
      if d = 0 then none else some d

/-- Match `[+-]?[0-9]*[.]?[0-9]+` (the `LiteralFloat` regex); the length of
the longest accepted prefix. -/
def floatLen (str : List Char) : Option Nat :=
  let (sgn, rest) :=
    match str with
    | c :: rest => if c = '+' || c = '-' then (1, rest) else (0, str)
    | [] => (0, str)
  let d1 := spanLen isAsciiDigit rest
  match rest.drop d1 with
  | '.' :: afterDot =>
    let d2 := spanLen isAsciiDigit afterDot
    if d2 = 0 then (if d1 = 0 then none else some (sgn + d1))
    else some (sgn + d1 + 1 + d2)
  | _ => if d1 = 0 then none else some (sgn + d1)

/-- Match `//.*` (line comments, skipped). -/
def lineCommentLen (str : List Char) : Option Nat :=
  if ("//".data).isPrefixOf str then
    some (2 + spanLen (fun c => !(c = '\n')) (str.drop 2))
  else none

/-- Match `[ \t\n\f]+` (whitespace, skipped). -/
def wsLen (str : List Char) : Option Nat :=
  let d := spanLen (fun c => c = ' ' || c = '\t' || c = '\n' || c = '\x0c') str
  if d = 0 then none else some d

/-- The literal (`#[token]`) patterns of `lexer.rs`, in declaration order. -/
def fixedTokens : List (List Char × Token) :=
  [("/*".data, .multilineCommentStart), ("*/".data, .multilineCommentEnd),
   ("set".data, .set), ("\x7b".data, .bracketOpen), ("\x7d".data, .bracketClose),
   (">".data, .moreThan), ("*".data, .multiply),
   ("maxdepth".data, .maxDepth), ("md".data, .maxDepth),
   ("weight".data, .weight), ("w".data, .weight),
   ("hue".data, .hue), ("h".data, .hue),
   ("brightness".data, .brightness), ("b".data, .brightness),
   ("alpha".data, .alpha), ("a".data, .alpha),
   ("color".data, .color), ("c".data, .color),
   ("reflect".data, .reflect), ("blend".data, .blend), ("matrix".data, .matrix),
   ("sat".data, .sat), ("v".data, .v),
   ("x".data, .x), ("y".data, .y), ("z".data, .z),
   ("rx".data, .rx), ("ry".data, .ry), ("rz".data, .rz), ("s".data, .s),
   ("fx".data, .fx), ("fy".data, .fy), ("fz".data, .fz)]

/-- The longest literal pattern matching at the start of `str`. -/
def bestFixed (str : List Char) : Option (Nat × Token) :=
  fixedTokens.foldl
    (fun best (pat, tk) =>
      match litLen pat str with
      | none => best
      | some n =>
        match best with
        | none => some (n, tk)
        | some (m, _) => if m < n then some (n, tk) else best)
    none

/-- One lexing step at the start of `str`: the classified token (`none` for a
skipped pattern) and the matched length.  Longest match wins; on equal
length, logos priorities order the competitors: literal tokens beat the
regex classes, and `LiteralInteger` (explicit `priority = 2`) beats
`LiteralFloat`.  An input matching no pattern yields one `error`
character. -/
def tokenAt (str : List Char) : Option Token × Nat :=
  let cands : List (Option Token × Nat) :=
    (match bestFixed str with
     | some (n, tk) => [(some tk, n)]
     | none => []) ++
    (match intLen str with
     | some n => [(some Token.literalInteger, n)] | none => []) ++
    (match floatLen str with
     | some n => [(some Token.literalFloat, n)] | none => []) ++
    (match ruleDefLen str with
     | some n => [(some Token.ruleDefinition, n)] | none => []) ++
    (match identLen str with
     | some n => [(some Token.ruleInvocation, n)] | none => []) ++
    (match lineCommentLen str with
     | some n => [(none, n)] | none => []) ++
    (match wsLen str with
     | some n => [(none, n)] | none => [])
  match cands.foldl
      (fun best c => match best with
        | none => some c
        | some (_, m) => if m < c.2 then some c else best)
      none with
  | some best => best
  | none => (some Token.error, 1)

/-- Fueled lexing loop; the fuel is the input length, and every step consumes
at least one character. -/
def lexF : Nat → List Char → List Tok
  | 0, _ => []
  | _ + 1, [] => []
  | fuel + 1, str =>
    let (tk, n) := tokenAt str
    let n := max n 1
    let rest := lexF fuel (str.drop n)
    match tk with
    | some t => ⟨t, String.mk (str.take n)⟩ :: rest
    | none => rest

/-- `Lexer::new(source)` driven to completion: the token stream the parser
consumes. -/
def lex (source : String) : List Tok :=
  lexF source.data.length source.data

/-- `ErrorKind` from `parser.rs`. -/
inductive ErrorKind where
  | unexpectedEOF
  | expectedIdentifier
  | expectedNumber
  | unexpectedTransformToken
  | unexpectedTopLevelToken
deriving DecidableEq, Repr

/-- Outcome of a fallible computation: `ok` is a returned value, `err` a
returned `ErrorKind`, `panic` a Rust panic (`assert_eq!`, `unwrap`,
`panic!`), and `gas` fuel exhaustion (standing for divergence of the
original program). -/
inductive Out (α : Type) where
  | ok (a : α)
  | err (k : ErrorKind)
  | panic
  | gas
deriving DecidableEq, Repr

/-- Result propagation: `?` on `Result` plus propagation of panics and of
fuel exhaustion. -/
def Out.bind {α β : Type} : Out α → (α → Out β) → Out β
  | .ok a, f => f a
  | .err k, _ => .err k
  | .panic, _ => .panic
  | .gas, _ => .gas

/-- Decimal value of a digit string. -/
def digitsToNat (l : List Char) : Nat :=
  l.foldl (fun acc c => 10 * acc + (c.toNat - 48)) 0

/-- `i32::from_str` on a lexed slice: optional sign then digits (integer
overflow, impossible in the claims' inputs, is not modelled). -/
def parseI32 (str : String) : Option Int :=
  match str.data with
  | [] => none
  | '+' :: rest =>
    if rest ≠ [] ∧ rest.all isAsciiDigit then some (digitsToNat rest) else none
  | '-' :: rest =>
    if rest ≠ [] ∧ rest.all isAsciiDigit then some (-(digitsToNat rest : Int))
    else none
  | l =>
    if l.all isAsciiDigit then some (digitsToNat l) else none

/-- `usize::from_str`: optional `+` then digits; a `-` sign fails. -/
def parseUsize (str : String) : Option Nat :=
  match str.data with
  | [] => none
  | '+' :: rest =>
    if rest ≠ [] ∧ rest.all isAsciiDigit then some (digitsToNat rest) else none
  | l =>
    if l.all isAsciiDigit then some (digitsToNat l) else none

/-- `f32::from_str` on a slice matching the float regex
`[+-]?[0-9]*[.]?[0-9]+`, read exactly into `ℚ` (all float values a claim
evaluates are exactly representable). -/
def parseDec (str : String) : Option ℚ :=
  let signed : List Char → Option ℚ := fun l =>
    let intPart := l.takeWhile isAsciiDigit
    let rest := l.dropWhile isAsciiDigit
    match rest with
    | [] => if intPart = [] then none else some (digitsToNat intPart : ℚ)
    | '.' :: frac =>
      if frac ≠ [] ∧ frac.all isAsciiDigit then
        some ((digitsToNat intPart : ℚ) +
          (digitsToNat frac : ℚ) / (10 : ℚ) ^ frac.length)
      else none
    | _ => none
  match str.data with
  | '+' :: rest => signed rest
  | '-' :: rest => (signed rest).map Neg.neg
  | l => signed l

/-- The `next` helper of `parser.rs`: skip `Token::Error` entries, return the
next real token or `UnexpectedEOF`. -/
def nextTok : List Tok → Out (Tok × List Tok)
  | [] => .err .unexpectedEOF
  | t :: rest => if t.tok = .error then nextTok rest else .ok (t, rest)

/-- `get_number` from `parse_transform`. -/
def getNumber (t : Tok) : Out ℚ :=
  match t.tok with
  | .literalInteger =>
    match parseI32 t.slice with
    | some n => .ok (n : ℚ)
    | none => .err .expectedNumber
  | .literalFloat =>
    match parseDec t.slice with
    | some q => .ok q
    | none => .err .expectedNumber
  | _ => .err .expectedNumber

/-- `next_number` from `parse_transform`. -/
def nextNumber (l : List Tok) : Out (ℚ × List Tok) :=
  (nextTok l).bind fun (t, rest) => (getNumber t).bind fun q => .ok (q, rest)

/-- `parse_transform` from `parser.rs`: fold attribute tokens into the
accumulating transform until the closing bracket (or end of input, which
returns `Ok`).  Spatial attributes compose by right-multiplication; `hue`,
`sat`, `brightness` and `alpha` assign their field directly.  The `s`
attribute speculatively reads two more numbers to disambiguate non-uniform
from uniform scaling. -/
def parseTransform : Nat → Transform → List Tok → Out (Transform × List Tok)
  | 0, _, _ => .gas
  | _ + 1, txv, [] => .ok (txv, [])
  | fuel + 1, txv, t :: rest =>
    match t.tok with
    | .bracketClose => .ok (txv, rest)
    | .x => (nextNumber rest).bind fun (n, l) =>
        parseTransform fuel (txv * Transform.translation n 0 0) l
    | .y => (nextNumber rest).bind fun (n, l) =>
        parseTransform fuel (txv * Transform.translation 0 n 0) l
    | .z => (nextNumber rest).bind fun (n, l) =>
        parseTransform fuel (txv * Transform.translation 0 0 n) l
    | .rx => (nextNumber rest).bind fun (n, l) =>
        parseTransform fuel (txv * Transform.rotate_x n) l
    | .ry => (nextNumber rest).bind fun (n, l) =>
        parseTransform fuel (txv * Transform.rotate_y n) l
    | .rz => (nextNumber rest).bind fun (n, l) =>
        parseTransform fuel (txv * Transform.rotate_z n) l
    | .s => (nextNumber rest).bind fun (n, l) =>
        (match nextNumber l with
         | .ok (sy, l2) =>
           (nextNumber l2).bind fun (sz, l3) =>
             parseTransform fuel (txv * Transform.scale n sy sz) l3
         | .err _ => parseTransform fuel (txv * Transform.scale n n n) l
         | .panic => .panic
         | .gas => .gas)
    | .hue => (nextNumber rest).bind fun (n, l) =>
        parseTransform fuel { txv with hue := n } l
    | .sat => (nextNumber rest).bind fun (n, l) =>
        parseTransform fuel { txv with sat := n } l
    | .brightness => (nextNumber rest).bind fun (n, l) =>
        parseTransform fuel { txv with brightness := n } l
    | .alpha => (nextNumber rest).bind fun (n, l) =>
        parseTransform fuel { txv with alpha := n } l
    | _ => .err .unexpectedTransformToken

/-- The loop of `parse_action_list`: gather loop blocks while the current
token starts one (`{` or an integer), then require a rule-invocation name.
In the integer case the source asserts (panics) that the following tokens
are `*` and `{`. -/
def parseActionLoop : Nat → List TransformationLoop → Tok → List Tok →
    Out (Action × List Tok)
  | 0, _, _, _ => .gas
  | fuel + 1, loops, t, l =>
    if t.tok = .bracketOpen ∨ t.tok = .literalInteger then
      let countStep : Out (Nat × List Tok) :=
        match t.tok with
        | .bracketOpen => .ok (1, l)
        | .literalInteger =>
          match parseUsize t.slice with
          | none => .err .expectedNumber
          | some c =>
            match l with
            | t1 :: l1 =>
              if t1.tok = .multiply then
                match l1 with
                | t2 :: l2 => if t2.tok = .bracketOpen then .ok (c, l2) else .panic
                | [] => .panic
              else .panic
            | [] => .panic
        | _ => .panic
      countStep.bind fun (count, l1) =>
      (parseTransform fuel Transform.default l1).bind fun (txv, l2) =>
      (nextTok l2).bind fun (t2, l3) =>
      parseActionLoop fuel (loops ++ [⟨count, txv⟩]) t2 l3
    else
      match t.tok with
      | .ruleInvocation => .ok (.transform ⟨loops, t.slice⟩, l)
      | _ => .err .expectedIdentifier

/-- `parse_action_list` from `parser.rs`. -/
def parseActionList (fuel : Nat) (t : Tok) (l : List Tok) :
    Out (Action × List Tok) :=
  parseActionLoop fuel [] t l

/-- The rule-body loop of `build_rules`: parse actions while the next token
can start one (`{`, integer, or invocation); also return the terminating
token, which the source asserts to be `}`. -/
def parseRuleBody : Nat → List Action → List Tok →
    Out (List Action × Tok × List Tok)
  | 0, _, _ => .gas
  | fuel + 1, actions, l =>
    (nextTok l).bind fun (t, l1) =>
    if t.tok = .bracketOpen ∨ t.tok = .literalInteger ∨ t.tok = .ruleInvocation
    then
      (parseActionLoop fuel [] t l1).bind fun (a, l2) =>
      parseRuleBody fuel (actions ++ [a]) l2
    else .ok (actions, t, l1)

/-- `lexer.take_while(|token| !matches!(token, Token::BracketOpen)).count()`:
drop every token up to and including the first `{` (rule modifiers are
skipped, not parsed — the `TODO` in `build_rules`). -/
def dropThroughBracketOpen : List Tok → List Tok
  | [] => []
  | t :: rest => if t.tok = .bracketOpen then rest else dropThroughBracketOpen rest

/-- `str::trim_start_matches("rule ")`: strip the prefix as long as it is
present. -/
def trimRuleF : Nat → List Char → List Char
  | 0, l => l
  | fuel + 1, l =>
    if ("rule ".data).isPrefixOf l then trimRuleF fuel (l.drop 5) else l

/-- The rule name extracted from a `RuleDefinition` slice. -/
def trimRule (str : String) : String :=
  ⟨trimRuleF str.data.length str.data⟩

/-- `build_rules` from `parser.rs`, one loop iteration per fuel unit.  The
pushed rule carries the reconciled `lib.rs` shape: since modifiers are
skipped, `max_depth` and `retirement_rule` are absent and the weight is the
default 1.0. -/
def buildRules : Nat → Bool → RuleSet → List Tok → Out RuleSet
  | 0, _, _, _ => .gas
  | _ + 1, _, rs, [] => .ok rs
  | fuel + 1, isComment, rs, t :: l =>
    if isComment ∧ t.tok ≠ .multilineCommentEnd then
      buildRules fuel isComment rs l
    else
      match t.tok with
      | .multilineCommentStart => buildRules fuel true rs l
      | .multilineCommentEnd => buildRules fuel false rs l
      | .ruleDefinition =>
        let name := trimRule t.slice
        let l1 := dropThroughBracketOpen l
        (parseRuleBody fuel [] l1).bind fun (actions, term, l2) =>
        if term.tok = .bracketClose then
          match rs.push (.custom
              ⟨⟨name, none, none, 1⟩, actions⟩) with
          | some rs2 => buildRules fuel isComment rs2 l2
          | none => .panic
        else .panic
      | .set =>
        let setStep : Out (SetAction × List Tok) :=
          match l with
          | [] => .err .unexpectedEOF
          | t1 :: l1 =>
            match t1.tok with
            | .maxDepth =>
              match l1 with
              | [] => .err .unexpectedEOF
              | t2 :: l2 =>
                if t2.tok = .literalInteger then
                  match parseUsize t2.slice with
                  | some n => .ok (SetAction.maxDepth n, l2)
                  | none => .err .expectedNumber
                else .err .expectedNumber
            | _ => .err .expectedIdentifier
        setStep.bind fun (sa, l2) =>
        buildRules fuel isComment (rs.addAction (.set sa)) l2
      | .ruleInvocation =>
        buildRules fuel isComment (rs.addAction (.transform ⟨[], t.slice⟩)) l
      | .literalInteger =>
        (parseActionList fuel t l).bind fun (a, l1) =>
        buildRules fuel isComment (rs.addAction a) l1
      | .bracketOpen =>
        (parseActionList fuel t l).bind fun (a, l1) =>
        buildRules fuel isComment (rs.addAction a) l1
      | .error => buildRules fuel isComment rs l
      | _ => .err .unexpectedTopLevelToken

/-- `Parser::rules()`: lex the source and run `build_rules`.  The fuel bound
`length + 1` is generous: every loop iteration of every parser function
consumes at least one token. -/
def parseRules (source : String) : Out RuleSet :=
  let toks := lex source
  buildRules (toks.length + 1) false RuleSet.new toks

/-- The successfully parsed rule table, when parsing returns `Ok`. -/
def parsedTable (source : String) : Option RuleSet :=
  match parseRules source with
  | .ok rs => some rs
  | _ => none

/-- Modelled from the spec: the random source ("the RNG must be passed into
the evaluator") — the `rand` crate is not part of this repository.  Any
concrete `rand::Rng` is a deterministic state machine seeded from its seed;
we model the state by a natural number with an LCG step. -/
structure Rng where
  state : Nat
deriving DecidableEq, Repr

/-- One generator step (deterministic state transition). -/
def Rng.next (g : Rng) : Nat × Rng :=
  let sNew := (6364136223846793005 * g.state + 1442695040888963407) % 2 ^ 64
  (sNew, ⟨sNew⟩)

/-- Selection of an index from cumulative weights: the first index whose
cumulative weight exceeds the drawn value. -/
def pickWeighted (u : ℚ) : List ℚ → ℚ → Nat
  | [], _ => 0
  | w :: rest, acc => if u < acc + w then 0 else pickWeighted u rest (acc + w) + 1

/-- Modelled from the spec: `rand::Rng::sample(rng, &weights)` on a
`WeightedIndex` — a weighted random choice driven by one generator step. -/
def sampleIndex (weights : List ℚ) (g : Rng) : Nat × Rng :=
  let (v, gNew) := g.next
  let total := weights.sum
  let u := (v % 2 ^ 32 : ℚ) / (2 : ℚ) ^ 32 * total
  (pickWeighted u weights 0, gNew)

/-- `Itertools::fold1` with `Transform` multiplication: `None` on an empty
list, otherwise the left fold of the tail over the head. -/
def fold1 : List Transform → Option Transform
  | [] => none
  | t :: rest => some (rest.foldl (· * ·) t)

/-- `Itertools::multi_cartesian_product`: every selection of one element per
factor, the last factor varying fastest. -/
def cartProd : List (List Transform) → List (List Transform)
  | [] => [[]]
  | first :: rest => first.flatMap fun t => (cartProd rest).map fun tup => t :: tup

/-- The per-loop scan `(1..=count).scan(tx, |state, _| { *state *= transform;
Some(*state) })`: the running products seeded from the incoming transform. -/
def loopStates (txv transform : Transform) : Nat → List Transform
  | 0 => []
  | n + 1 => (txv * transform) :: loopStates (txv * transform) transform n

/-- `TransformAction::iter`: with no loops, the incoming transform once;
otherwise the cartesian product of the per-loop scans, each tuple folded by
left-to-right composition (`fold1`).  Product tuples are nonempty, so the
`fold1` of each is `some`. -/
def TransformAction.iterL (a : TransformAction) (txv : Transform) :
    List Transform :=
  if a.loops.isEmpty then [txv]
  else
    (cartProd (a.loops.map fun l => loopStates txv l.transform l.count)).filterMap
      fold1

/-- One leaf of the output sequence. -/
abbrev Leaf := Transform × Primitive

/-- Expansion of one action's candidate transforms into the target rule,
`k` being the (fuel-decremented) evaluation of a rule. -/
def evalTxsWith (k : Rule → Transform → Nat → Rng → Out (List Leaf × Rng))
    (target : Rule) (depth : Nat) : List Transform → Rng → Out (List Leaf × Rng)
  | [], g => .ok ([], g)
  | txv :: rest, g =>
    (k target txv (depth + 1) g).bind fun (ls, g1) =>
    (evalTxsWith k target depth rest g1).bind fun (ls2, g2) =>
    .ok (ls ++ ls2, g2)

/-- The body of `Custom::iter`: `Set` actions are filtered out; each
`TransformAction` resolves its target (`unwrap` panics on a missing name)
and expands every candidate transform in order. -/
def evalActsWith (k : Rule → Transform → Nat → Rng → Out (List Leaf × Rng))
    (rules : RulesMap) (txv : Transform) (depth : Nat) :
    List Action → Rng → Out (List Leaf × Rng)
  | [], g => .ok ([], g)
  | .set _ :: rest, g => evalActsWith k rules txv depth rest g
  | .transform ta :: rest, g =>
    match findRule rules ta.rule with
    | none => .panic
    | some target =>
      (evalTxsWith k target depth (ta.iterL txv) g).bind fun (ls, g1) =>
      (evalActsWith k rules txv depth rest g1).bind fun (ls2, g2) =>
      .ok (ls ++ ls2, g2)

/-- `Custom::iter`: empty output when the rule's `max_depth` equals the
current nominal depth, otherwise the expansion of the action list. -/
def evalCustomWith (k : Rule → Transform → Nat → Rng → Out (List Leaf × Rng))
    (rules : RulesMap) (c : Custom) (txv : Transform) (depth : Nat) (g : Rng) :
    Out (List Leaf × Rng) :=
  if c.rule.maxDepth = some depth then .ok ([], g)
  else evalActsWith k rules txv depth c.actions g

/-- `Rule::iter`, with fuel: a primitive yields one leaf; a custom rule
expands its body; an ambiguous rule samples a weighted candidate (indexing
out of bounds would panic) and expands it. -/
def evalRule (rules : RulesMap) : Nat → Rule → Transform → Nat → Rng →
    Out (List Leaf × Rng)
  | 0, _, _, _, _ => .gas
  | fuel + 1, r, txv, depth, g =>
    match r with
    | .primitive p => .ok ([(txv, p)], g)
    | .custom c =>
      evalCustomWith (fun r2 t2 d2 g2 => evalRule rules fuel r2 t2 d2 g2) rules
        c txv depth g
    | .ambiguous a =>
      let (i, g1) := sampleIndex a.weights g
      match a.actions.get? i with
      | some c =>
        evalCustomWith (fun r2 t2 d2 g2 => evalRule rules fuel r2 t2 d2 g2)
          rules c txv depth g1
      | none => .panic

/-- `RuleSetIterator::new` driven to completion (`Context::new`: identity
transform, depth 0): the full output sequence of one evaluation run,
together with the final generator state. -/
def RuleSet.run (rs : RuleSet) (fuel : Nat) (g : Rng) : Out (List Leaf × Rng) :=
  evalCustomWith (fun r2 t2 d2 g2 => evalRule rs.rules fuel r2 t2 d2 g2)
    rs.rules rs.topLevel Transform.default 0 g

/-- Two evaluation runs of the same table, each driven by an independently
constructed generator seeded with the same seed. -/
def runTwice (rs : RuleSet) (fuel seed : Nat) :
    Out (List Leaf × Rng) × Out (List Leaf × Rng) :=
  (rs.run fuel ⟨seed⟩, rs.run fuel ⟨seed⟩)

/-! ## General lemmas about the embedding -/

/-- The length of a per-loop scan is the loop count. -/
theorem loopStates_length (transform : Transform) (n : Nat) :
    ∀ txv : Transform, (loopStates txv transform n).length = n := by
  induction n with
  | zero => intro txv; rfl
  | succ m ih => intro txv; simp [loopStates, ih]

/-- The cartesian product has one tuple per selection of one element per
factor. -/
theorem cartProd_length (ls : List (List Transform)) :
    (cartProd ls).length = (ls.map List.length).prod := by
  induction ls with
  | nil => rfl
  | cons first rest ih =>
    simp only [cartProd, List.map_cons, List.prod_cons]
    induction first with
    | nil => simp
    | cons t ts iht =>
      simp only [List.flatMap_cons, List.length_append, List.length_map, iht,
        List.length_cons, ih]
      ring

/-- Tuples of a cartesian product over at least one factor are nonempty. -/
theorem cartProd_mem_ne_nil (first : List Transform)
    (rest : List (List Transform)) :
    ∀ tup ∈ cartProd (first :: rest), tup ≠ [] := by
  intro tup htup
  simp only [cartProd, List.mem_flatMap, List.mem_map] at htup
  obtain ⟨t, _, tup2, _, rfl⟩ := htup
  simp

/-- `filterMap` keeps the length when the function is total on the list. -/
theorem length_filterMap_isSome {α β : Type} (f : α → Option β) :
    ∀ l : List α, (∀ a ∈ l, (f a).isSome) → (l.filterMap f).length = l.length := by
  intro l
  induction l with
  | nil => intro _; rfl
  | cons a rest ih =>
    intro h
    have ha := h a (by simp)
    cases hfa : f a with
    | none => rw [hfa] at ha; cases ha
    | some b =>
      simp only [List.filterMap_cons, hfa, List.length_cons]
      rw [ih fun x hx => h x (by simp [hx])]

/-- An action's candidate-transform list has exactly the product of its loop
counts as length (one candidate for an empty loop list). -/
theorem iterL_length (a : TransformAction) (txv : Transform) :
    (a.iterL txv).length = (a.loops.map fun l => l.count).prod := by
  unfold TransformAction.iterL
  cases hl : a.loops with
  | nil => simp
  | cons l0 rest =>
    simp only [List.isEmpty_cons, Bool.false_eq_true, if_false]
    rw [length_filterMap_isSome]
    · rw [cartProd_length, List.map_map]
      have hcomp :
          (List.length ∘ fun l : TransformationLoop =>
            loopStates txv l.transform l.count) = fun l => l.count := by
        funext l
        exact loopStates_length _ _ _
      rw [hcomp]
    · intro tup htup
      have hne := cartProd_mem_ne_nil _ _ tup (by simpa using htup)
      cases tup with
      | nil => cases hne rfl
      | cons t ts => simp [fold1]

/-! ## C8: composition identity -/

/-- C8: composing any `Transform` with the identity `Transform` (identity
matrix, hue 0, sat 1, brightness 1, alpha 1) on either side yields it
unchanged. -/
theorem c8_transform_identity (t : Transform) :
    t * Transform.default = t ∧ Transform.default * t = t := by
  obtain ⟨⟨e00, e01, e02, e03, e10, e11, e12, e13, e20, e21, e22, e23, e30,
    e31, e32, e33⟩, hu, sa, br, al⟩ := t
  constructor <;>
    · show Transform.mul _ _ = _
      simp only [Transform.mul, Transform.default]
      show Transform.mk (Mat4.mul _ _) _ _ _ _ = _
      simp only [Mat4.mul, Mat4.identity]
      norm_num

/-! ## C9: determinism of evaluation under a fixed seed -/

/-- C9: two evaluation runs of the same rule table, each driven by an
independently constructed generator seeded with the same seed, produce
identical output sequences (evaluation is a pure function of the table and
the seeded generator state). -/
theorem c9_run_deterministic (rs : RuleSet) (fuel seed : Nat) :
    (runTwice rs fuel seed).1 = (runTwice rs fuel seed).2 := rfl

/-! ## C5: cartesian-loop law -/

/-- C5: evaluating the table parsed from `"2 * {x 2} 2 * {y 2} box"` from the
identity transform yields exactly the four translations (2,2,0), (2,4,0),
(4,2,0), (4,4,0), each paired with Box, in that order; and in general an
action's candidate-transform list has exactly the product of its loop counts
as length, one candidate per element of the cartesian product. -/
theorem c5_cartesian_loop_law :
    ((parsedTable "2 * \x7bx 2\x7d 2 * \x7by 2\x7d box").map
        (fun t => t.run 10 ⟨0⟩) =
      some (.ok ([(Transform.translation 2 2 0, .box),
        (Transform.translation 2 4 0, .box),
        (Transform.translation 4 2 0, .box),
        (Transform.translation 4 4 0, .box)], ⟨0⟩))) ∧
    ∀ (a : TransformAction) (txv : Transform),
      (a.iterL txv).length = (a.loops.map fun l => l.count).prod := by
  constructor
  · with_unfolding_all decide
  · exact iterL_length

/-! ## C4: primitive rule table entries and the cylinder typo -/

/-- C4 evidence: `Primitive::name` misspells the cylinder key as "cyliner",
so the rule table built by `RuleSet::new` has no "cylinder" entry; a
top-level invocation of `cylinder` panics on the `unwrap` of the failed
lookup instead of yielding a Cylinder leaf, while the misspelled name
resolves to the Cylinder primitive. -/
theorem c4_cylinder_typo :
    Primitive.cylinder.name = "cyliner" ∧
    findRule RuleSet.new.rules "cylinder" = none ∧
    findRule RuleSet.new.rules "cyliner" = some (.primitive .cylinder) ∧
    (parsedTable "cylinder").map (fun t => t.run 10 ⟨0⟩) = some .panic ∧
    (parsedTable "cyliner").map (fun t => t.run 10 ⟨0⟩) =
      some (.ok ([(Transform.default, .cylinder)], ⟨0⟩)) := by
  refine ⟨rfl, by decide, by decide, ?_, ?_⟩ <;> with_unfolding_all decide

/-! ## C7: end-of-input behavior -/

/-- C7 counterexample: the token stream of the top-level source `"3"` ends in
the middle of a loop construct, yet parsing panics on the
`assert_eq!(lexer.next(), Some(Token::Multiply))` assertion instead of
returning the `UnexpectedEOF` error value. -/
theorem c7_counterexample :
    parseRules "3" = .panic ∧
    (Out.panic : Out RuleSet) ≠ .err .unexpectedEOF := by
  constructor
  · with_unfolding_all decide
  · decide

/-- C7 amended: end-of-input parse outcomes are not uniformly the
`UnexpectedEOF` error value.  A stream that ends inside a transform block
(`"{ x 1"`) or that ends in a rule definition body right after a completed
action (`"rule r1 { box"`) does return `UnexpectedEOF`; but a loop-count
integer whose `* {` continuation is cut off by the end of input makes the
parser panic on an `assert_eq!` assertion instead of returning an error —
at top level (`"3"`, `"3 *"`) and equally inside a rule definition body
(`"rule r1 { 3"`). -/
theorem c7_amended_eof_behavior :
    parseRules "\x7b x 1" = .err .unexpectedEOF ∧
    parseRules "rule r1 \x7b box" = .err .unexpectedEOF ∧
    parseRules "3" = .panic ∧
    parseRules "3 *" = .panic ∧
    parseRules "rule r1 \x7b 3" = .panic := by
  refine ⟨?_, ?_, ?_, ?_, ?_⟩ <;> with_unfolding_all decide

/-! ## C6: transform-block attribute accumulation -/

/-- C6 counterexample: parsing the block `{hue 10 hue 20}` yields a loop
transform with hue 20 (the second occurrence overwrites the first), whereas
the composition of the two per-attribute hue transforms has hue 30; likewise
`{sat 2 sat 3}` yields sat 3, not the product 6. -/
theorem c6_counterexample :
    (parsedTable "\x7bhue 10 hue 20\x7d box").map
        (fun t => t.topLevel.actions) =
      some [.transform ⟨[⟨1, { Transform.default with hue := 20 }⟩], "box"⟩] ∧
    (Transform.hsv 10 1 1 * Transform.hsv 20 1 1).hue = 30 ∧
    (20 : ℚ) ≠ 30 ∧
    (parsedTable "\x7bsat 2 sat 3\x7d box").map
        (fun t => t.topLevel.actions) =
      some [.transform ⟨[⟨1, { Transform.default with sat := 3 }⟩], "box"⟩] ∧
    (Transform.hsv 0 2 1 * Transform.hsv 0 3 1).sat = 6 ∧
    (3 : ℚ) ≠ 6 := by
  refine ⟨?_, ?_, by decide, ?_, ?_, by decide⟩ <;> with_unfolding_all decide

/-- C6 amended: inside a transform block the spatial attributes accumulate by
right-multiplication in appearance order (`{x 1 x 2}` composes to the
translation by 3), while each color attribute (`hue`, `sat`, `brightness`,
`alpha`) assigns its field directly so that the last occurrence wins:
`{hue 10 hue 20}` yields hue 20 and `{sat 2 sat 3}` yields sat 3. -/
theorem c6_amended_attribute_semantics :
    (parsedTable "\x7bx 1 x 2\x7d box").map (fun t => t.topLevel.actions) =
      some [.transform ⟨[⟨1, Transform.translation 3 0 0⟩], "box"⟩] ∧
    (parsedTable "\x7bhue 10 hue 20\x7d box").map
        (fun t => t.topLevel.actions) =
      some [.transform ⟨[⟨1, { Transform.default with hue := 20 }⟩], "box"⟩] ∧
    (parsedTable "\x7bsat 2 sat 3\x7d box").map
        (fun t => t.topLevel.actions) =
      some [.transform ⟨[⟨1, { Transform.default with sat := 3 }⟩], "box"⟩] := by
  refine ⟨?_, ?_, ?_⟩ <;> with_unfolding_all decide

/-! ## C3: set directives and evaluation -/

/-- The rule table with the implicit top-level rule's `max_depth` forced to
`n` — what "consuming `set maxdepth n` as the top-level expansion budget"
would amount to in the `Custom::iter` semantics. -/
def setTopMaxDepth (rs : RuleSet) (n : Nat) : RuleSet :=
  { rs with topLevel := { rs.topLevel with
      rule := { rs.topLevel.rule with maxDepth := some n } } }

/-- C3 counterexample: `"set maxdepth 0"` is recorded on the top-level action
list, yet evaluation still yields the box leaf — identical to a table with
no directive — whereas an actually consumed top-level budget of 0 would
suppress all output (as forcing `max_depth := some 0` on the top-level rule
shows). -/
theorem c3_counterexample :
    (parsedTable "set maxdepth 0\nbox").map (fun t => t.topLevel.actions) =
      some [.set (.maxDepth 0), .transform ⟨[], "box"⟩] ∧
    (parsedTable "set maxdepth 0\nbox").map (fun t => t.run 10 ⟨0⟩) =
      some (.ok ([(Transform.default, .box)], ⟨0⟩)) ∧
    (parsedTable "set maxdepth 0\nbox").map
        (fun t => (setTopMaxDepth t 0).run 10 ⟨0⟩) =
      some (.ok ([], ⟨0⟩)) ∧
    ([(Transform.default, Primitive.box)] : List Leaf) ≠ [] := by
  refine ⟨?_, ?_, ?_, by decide⟩ <;> with_unfolding_all decide

/-- C3 amended: a `set maxdepth N` directive is parsed and recorded on the
implicit top-level rule's action list, but `Custom::iter` filters out every
`Set` action, so no set directive (max-depth included) affects the output
sequence. -/
theorem c3_amended_set_directives_inert :
    (∀ (k : Rule → Transform → Nat → Rng → Out (List Leaf × Rng))
        (rules : RulesMap) (txv : Transform) (depth : Nat) (sa : SetAction)
        (rest : List Action) (g : Rng),
      evalActsWith k rules txv depth (.set sa :: rest) g =
        evalActsWith k rules txv depth rest g) ∧
    (parsedTable "set maxdepth 0\nbox").map (fun t => t.topLevel.actions) =
      some [.set (.maxDepth 0), .transform ⟨[], "box"⟩] ∧
    (parsedTable "set maxdepth 0\nbox").map (fun t => t.run 10 ⟨0⟩) =
      some (.ok ([(Transform.default, .box)], ⟨0⟩)) := by
  refine ⟨fun k rules txv depth sa rest g => rfl, ?_, ?_⟩ <;>
    with_unfolding_all decide

/-! ## C2: duplicate rule definitions -/

/-- Lookup after keyed insertion finds the inserted rule. -/
theorem findRule_insertRule_self (m : RulesMap) (n : String) (r : Rule) :
    findRule (insertRule m n r) n = some r := by
  induction m with
  | nil => simp [insertRule, findRule]
  | cons p rest ih =>
    obtain ⟨k, r0⟩ := p
    by_cases h : k = n <;> simp [insertRule, findRule, h, ih]

/-- C2 amended: pushing a second `Custom` definition under a name already
bound to a `Custom` replaces the entry by an `Ambiguous` rule holding both
candidates with their weights (provided the weights are admissible for
`WeightedIndex::new`); but pushing a further definition onto a name already
bound to an `Ambiguous` entry panics in `assert_custom` — a crash, not a
returned error value. -/
theorem c2_amended_push_duplicates :
    (∀ (rs : RuleSet) (c1 c2 : Custom),
      findRule rs.rules c2.rule.name = some (.custom c1) →
      0 ≤ c1.rule.weight → 0 ≤ c2.rule.weight →
      0 < c1.rule.weight + c2.rule.weight →
      ∃ rs2, rs.push (.custom c2) = some rs2 ∧
        findRule rs2.rules c2.rule.name = some (.ambiguous
          ⟨c2.rule.name, [c1, c2], [c1.rule.weight, c2.rule.weight]⟩)) ∧
    (∀ (rs : RuleSet) (a : Ambiguous) (c : Custom),
      findRule rs.rules c.rule.name = some (.ambiguous a) →
      rs.push (.custom c) = none) := by
  constructor
  · intro rs c1 c2 hfind h1 h2 hsum
    have hname : Rule.name (.custom c2) = c2.rule.name := rfl
    have hvalid : weightsValid [c1.rule.weight, c2.rule.weight] = true := by
      simp only [weightsValid, List.all_cons, List.all_nil, List.sum_cons,
        List.sum_nil, Bool.and_true, Bool.and_eq_true, decide_eq_true_eq]
      refine ⟨⟨by exact_mod_cast h1, by exact_mod_cast h2⟩, ?_⟩
      simpa using hsum
    refine ⟨{ rs with rules := insertRule (removeRule rs.rules c2.rule.name) c2.rule.name (.ambiguous ⟨c2.rule.name, [c1, c2], [c1.rule.weight, c2.rule.weight]⟩) }, ?_, findRule_insertRule_self _ _ _⟩
    show RuleSet.push rs (.custom c2) = _
    unfold RuleSet.push
    rw [hname, hfind]
    simp only [List.map_cons, List.map_nil, hvalid, if_true]
  · intro rs a c hfind
    show RuleSet.push rs (.custom c) = none
    unfold RuleSet.push
    rw [show Rule.name (.custom c) = c.rule.name from rfl, hfind]

/-- A sample custom definition used to witness the duplicate-push behavior. -/
def cDup : Custom := ⟨⟨"r1", none, none, 1⟩, []⟩

/-- A rule set whose table binds "r1" to `cDup`. -/
def rsDup : RuleSet := { topLevel := RuleSet.new.topLevel,
                         rules := [("r1", .custom cDup)] }

/-- A rule set whose table binds "r1" to an `Ambiguous` entry of two
candidates. -/
def rsDup2 : RuleSet := { topLevel := RuleSet.new.topLevel,
                          rules := [("r1",
                            .ambiguous ⟨"r1", [cDup, cDup], [1, 1]⟩)] }

/-- Witness for `c2_amended_push_duplicates` at concrete inputs. -/
theorem c2_amended_push_duplicates_witness :
    (∃ rs2, rsDup.push (.custom cDup) = some rs2 ∧
      findRule rs2.rules cDup.rule.name = some (.ambiguous
        ⟨cDup.rule.name, [cDup, cDup], [cDup.rule.weight, cDup.rule.weight]⟩)) ∧
    rsDup2.push (.custom cDup) = none :=
  ⟨c2_amended_push_duplicates.1 rsDup cDup cDup (by with_unfolding_all decide)
      (by with_unfolding_all decide) (by with_unfolding_all decide)
      (by with_unfolding_all decide),
    c2_amended_push_duplicates.2 rsDup2 ⟨"r1", [cDup, cDup], [1, 1]⟩ cDup
      (by with_unfolding_all decide)⟩

/-- C2 counterexample: pushing three `Custom` definitions under the same
name into a fresh rule table does not produce a defined error value — the
third push panics (`assert_custom` hits the `Ambiguous` entry), modelled by
`none`. -/
theorem c2_counterexample :
    ((RuleSet.new.push (.custom cDup)).bind fun rs =>
        rs.push (.custom cDup)).bind (fun rs => rs.push (.custom cDup)) =
      none := by
  with_unfolding_all decide

/-! ## C10: empty and comment-only sources -/

/-- Inside a block comment, a non-terminator token is skipped. -/
theorem buildRules_cons_skip (f : Nat) (rs : RuleSet) (t : Tok) (l : List Tok)
    (ht : t.tok ≠ Token.multilineCommentEnd) :
    buildRules (f+1) true rs (t :: l) = buildRules f true rs l := by
  simp only [buildRules]
  rw [if_pos ⟨trivial, ht⟩]

/-- A comment-start token outside a comment turns the comment flag on. -/
theorem buildRules_cons_mcs (f : Nat) (rs : RuleSet) (t : Tok) (l : List Tok)
    (h : t.tok = Token.multilineCommentStart) :
    buildRules (f+1) false rs (t :: l) = buildRules f true rs l := by
  simp only [buildRules, h]
  rw [if_neg (by simp)]

/-- A comment-end token turns the comment flag off in either state. -/
theorem buildRules_cons_mce (f : Nat) (b : Bool) (rs : RuleSet) (t : Tok)
    (l : List Tok) (h : t.tok = Token.multilineCommentEnd) :
    buildRules (f+1) b rs (t :: l) = buildRules f false rs l := by
  simp only [buildRules, h]
  rw [if_neg (by simp)]

/-- `build_rules` maps a token stream consisting solely of block-comment
markers to the unchanged rule set, for any starting comment flag and any
sufficient fuel. -/
theorem buildRules_comment_tokens (toks : List Tok) :
    ∀ (fuel : Nat) (b : Bool) (rs : RuleSet),
      (∀ t ∈ toks, t.tok = Token.multilineCommentStart ∨
        t.tok = Token.multilineCommentEnd) →
      toks.length < fuel → buildRules fuel b rs toks = .ok rs := by
  induction toks with
  | nil =>
    intro fuel b rs _ hf
    cases fuel with
    | zero => omega
    | succ f => rfl
  | cons t rest ih =>
    intro fuel b rs hall hf
    cases fuel with
    | zero => simp at hf
    | succ f =>
      have hrest : ∀ x ∈ rest, x.tok = Token.multilineCommentStart ∨
          x.tok = Token.multilineCommentEnd :=
        fun x hx => hall x (by simp [hx])
      have hf2 : rest.length < f := by
        simp only [List.length_cons] at hf
        omega
      rcases hall t (by simp) with h | h
      · cases b with
        | false =>
          rw [buildRules_cons_mcs f rs t rest h]
          exact ih f true rs hrest hf2
        | true =>
          rw [buildRules_cons_skip f rs t rest (by simp [h])]
          exact ih f true rs hrest hf2
      · rw [buildRules_cons_mce f b rs t rest h]
        exact ih f false rs hrest hf2

/-- C10: parsing the empty source, or a source of only whitespace and
comments, succeeds with an empty top-level action list, and evaluating the
result yields the empty sequence; in general `build_rules` returns the
untouched rule set on any stream of comment-marker tokens (whitespace and
line comments are already dropped by the lexer). -/
theorem c10_empty_source :
    ((parsedTable "").map fun t => t.topLevel.actions) = some [] ∧
    ((parsedTable "").map fun t => t.run 10 ⟨0⟩) = some (.ok ([], ⟨0⟩)) ∧
    ((parsedTable "  /* box 3 */ // hello\n").map fun t =>
      t.topLevel.actions) = some [] ∧
    ((parsedTable "  /* box 3 */ // hello\n").map fun t => t.run 10 ⟨0⟩) =
      some (.ok ([], ⟨0⟩)) ∧
    ∀ (toks : List Tok) (fuel : Nat) (b : Bool) (rs : RuleSet),
      (∀ t ∈ toks, t.tok = Token.multilineCommentStart ∨
        t.tok = Token.multilineCommentEnd) →
      toks.length < fuel → buildRules fuel b rs toks = .ok rs := by
  refine ⟨?_, ?_, ?_, ?_, fun toks fuel b rs h1 h2 =>
    buildRules_comment_tokens toks fuel b rs h1 h2⟩ <;> with_unfolding_all decide

/-- Witness for the universally quantified part of `c10_empty_source` at a
concrete comment-marker stream. -/
theorem c10_empty_source_witness :
    buildRules 3 false RuleSet.new
      [⟨.multilineCommentStart, "/*"⟩, ⟨.multilineCommentEnd, "*/"⟩] =
      .ok RuleSet.new :=
  c10_empty_source.2.2.2.2
    [⟨.multilineCommentStart, "/*"⟩, ⟨.multilineCommentEnd, "*/"⟩] 3 false
    RuleSet.new (by decide) (by decide)

/-! ## C1: depth budget of a self-recursive rule -/

/-- The depth-budget source of the claim: a top-level invocation of a
self-recursive rule `r1` declared with max-depth 4 and body
`box; {x 1 h 20} r1`. -/
def srcC1 : String := "r1 rule r1 maxdepth 4 \x7b box \x7b x 1 h 20 \x7d r1 \x7d"

/-- The loop transform of `r1`'s second action: translation by one on x with
hue assigned to 20. -/
def txC1 : Transform := { Transform.translation 1 0 0 with hue := 20 }

/-- The custom rule `r1` as the parser actually builds it: the `maxdepth 4`
modifier is skipped (`build_rules` drops everything up to the opening brace),
so `maxDepth` is `none`. -/
def customR1 : Custom :=
  ⟨⟨"r1", none, none, 1⟩,
   [.transform ⟨[], "box"⟩, .transform ⟨[⟨1, txC1⟩], "r1"⟩]⟩

/-- The rule table parsed from `srcC1`. -/
def tblC1 : RuleSet :=
  { topLevel := { rule := ⟨"Top Level", none, none, 1⟩,
                  actions := [.transform ⟨[], "r1"⟩] },
    rules := RuleSet.new.rules ++ [("r1", .custom customR1)] }

/-- With no recorded max-depth, evaluating `r1` never terminates: the fueled
evaluator exhausts any fuel. -/
theorem evalRule_customR1_gas :
    ∀ (fuel : Nat) (txv : Transform) (depth : Nat) (g : Rng),
      evalRule tblC1.rules fuel (.custom customR1) txv depth g = .gas := by
  have hbox : findRule tblC1.rules "box" = some (.primitive .box) := by decide
  have hr1 : findRule tblC1.rules "r1" = some (.custom customR1) := by decide
  intro fuel
  induction fuel with
  | zero => intro txv depth g; rfl
  | succ f ih =>
    intro txv depth g
    simp only [evalRule, evalCustomWith, customR1]
    rw [if_neg (by simp)]
    simp only [evalActsWith, hbox, hr1, TransformAction.iterL, List.isEmpty_nil,
      List.isEmpty_cons, if_true, Bool.false_eq_true, if_false, List.map_cons,
      List.map_nil, loopStates, cartProd, List.flatMap_cons, List.flatMap_nil,
      List.map, List.append_nil, List.filterMap_cons, List.filterMap_nil, fold1,
      List.foldl_nil, evalTxsWith, ih, Out.bind]
    cases f with
    | zero => simp only [evalRule, Out.bind]
    | succ f2 => simp only [evalRule, Out.bind, evalTxsWith, ih]

/-- A full evaluation run of the parsed depth-budget table exhausts any
fuel: the run diverges instead of producing a finite sequence. -/
theorem run_tblC1_gas : ∀ (fuel : Nat) (g : Rng), tblC1.run fuel g = .gas := by
  have hr1 : findRule tblC1.rules "r1" = some (.custom customR1) := by decide
  intro fuel g
  show evalCustomWith _ _ _ _ _ _ = _
  rw [evalCustomWith, if_neg (by decide)]
  show evalActsWith _ _ _ _ [Action.transform ⟨[], "r1"⟩] g = _
  simp only [evalActsWith, hr1, TransformAction.iterL, List.isEmpty_nil, if_true,
    evalTxsWith, evalRule_customR1_gas, Out.bind]

/-- The table with the named rule's `max_depth` manually set to `d` — what
binding the declared modifier would have produced. -/
def setRuleMaxDepth (rs : RuleSet) (n : String) (d : Nat) : RuleSet :=
  { rs with rules := rs.rules.map fun e =>
      if e.1 = n then
        (e.1, match e.2 with
              | .custom c =>
                .custom { c with rule := { c.rule with maxDepth := some d } }
              | r => r)
      else e }

/-- C1 evidence: the parser drops the declared `maxdepth 4` modifier of the
self-recursive rule `r1` (its `maxDepth` is `none`), so the evaluation of a
single top-level invocation of `r1` diverges (every fuel is exhausted)
instead of yielding 4 leaves; and even with `max_depth := 4` bound by hand,
`Custom::iter`'s cut-off at nominal depth 4 yields 3 leaves, not 4. -/
theorem c1_depth_budget :
    parsedTable srcC1 = some tblC1 ∧
    findRule tblC1.rules "r1" = some (.custom customR1) ∧
    customR1.rule.maxDepth = none ∧
    (∀ (fuel : Nat) (g : Rng), tblC1.run fuel g = .gas) ∧
    (setRuleMaxDepth tblC1 "r1" 4).run 30 ⟨0⟩ =
      .ok ([(Transform.default, .box), (txC1, .box), (txC1 * txC1, .box)], ⟨0⟩) := by
  refine ⟨by with_unfolding_all decide, by decide, rfl, run_tblC1_gas, ?_⟩
  with_unfolding_all decide

end Eisen
